import Mathlib

/-!
Verification of the marker-discovery and artifact-path-resolution logic of
`streamlit_app.py` (TLS neighborhood-analysis results viewer).

The filesystem is modelled as an abstract read-only capability `FS` with the
two observations the source code performs: `glob.glob` (returning the
matching paths in directory-listing order) and `os.path.isfile`.  A concrete
instantiation `FS.ofFiles` builds such a capability from an explicit listing,
using a reference implementation of glob matching (`*` and `?` wildcards,
neither crossing a path separator, everything else literal).

Python strings are modelled as Lean `String`s; Python `str.replace` with a
one-character needle is the per-character expansion `replaceAll`;
`os.path.join` is the POSIX join algorithm; a Python `set` of strings is a
`Finset String`, and `sorted` on it is `Finset.sort (· ≤ ·)` (both orders are
lexicographic by code point).  A Python dict literal is an insertion-ordered
association list, and the dict of directory names consumed by
`image_paths_for_marker` (whose three lookups are all on statically present
keys) is passed as a total lookup function.
-/

namespace TLSViewer

/-- Python `str.replace old new` for a one-character `old`: every occurrence
of the character `old` is replaced by (the characters of) `new`. -/
def replaceAll (s : String) (old : Char) (new : String) : String :=
  ⟨(s.data.map (fun c => if c = old then new.data else [c])).flatten⟩

/-- `sanitize_for_filename` (src lines 8-12): replace each space with `_`,
then delete every occurrence of `:`, `/`, `\` in that order. -/
def sanitize_for_filename (name : String) : String :=
  let out := replaceAll name ' ' "_"
  [':', '/', '\\'].foldl (fun out ch => replaceAll out ch "") out

/-- `folder_templates` (src lines 14-20); an f-string is concatenation. -/
def folder_templates (pfx : String) : List (String × String) :=
  [("pval_barplots", "tls_pval_barplots_" ++ pfx),
   ("gmm_components", "tail_3sig_byMedian_" ++ pfx ++ "_median_plus_3mad"),
   ("violin", "tls_violin_by_tls_cluster_" ++ pfx),
   ("radius_profiles",
    "tls_radius_profiles_grouped_variation_gmmMedian_allPatients_" ++ pfx
      ++ "_inwardLimit2")]

/-- One step of POSIX `os.path.join`: an absolute component restarts the
path; otherwise the component is appended, inserting `/` unless the
accumulated path is empty or already ends in `/`. -/
def joinOne (path b : String) : String :=
  if b.data.head? = some '/' then b
  else if path.data = [] ∨ path.data.getLast? = some '/' then ⟨path.data ++ b.data⟩
  else ⟨path.data ++ '/' :: b.data⟩

/-- `resolve_path` (src lines 22-23): `os.path.join(base_dir, *parts)`. -/
def resolve_path (base_dir : String) (parts : List String) : String :=
  parts.foldl joinOne base_dir

/-- The filesystem capability the core logic reads: glob expansion (results
in directory-listing order) and file-existence checks. -/
structure FS where
  glob : String → List String
  isFile : String → Bool

/-- `file_exists` (src lines 25-26): `os.path.isfile`. -/
def file_exists (fs : FS) (path : String) : Bool :=
  fs.isFile path

/-- `os.path.basename` for POSIX paths: everything after the final `/`. -/
def basename (p : String) : String :=
  ⟨(p.data.reverse.takeWhile (fun c => c ≠ '/')).reverse⟩

/-- Python `str.endswith`. -/
def pyEndsWith (s t : String) : Bool :=
  t.data.isSuffixOf s.data

/-- Python slice `s[:-len(t)]` (by code points). -/
def pyDropSuffix (s t : String) : String :=
  ⟨s.data.take (s.data.length - t.data.length)⟩

/-- Helper for the reference glob matcher: try the continuation `f` on every
suffix of the text reachable without crossing a path separator (the
possible remainders after a `*`). -/
def globStar (f : List Char → Bool) : List Char → Bool
  | [] => f []
  | c :: ts => f (c :: ts) || (decide (c ≠ '/') && globStar f ts)

/-- Reference implementation of the glob matching the source delegates to
`glob.glob`: `*` matches any run of non-separator characters, `?` one
non-separator character, everything else is literal. -/
def globMatchL : List Char → List Char → Bool
  | [], t => t.isEmpty
  | '*' :: ps, t => globStar (globMatchL ps) t
  | '?' :: ps, t =>
    match t with
    | [] => false
    | c :: ts => decide (c ≠ '/') && globMatchL ps ts
  | p :: ps, t =>
    match t with
    | [] => false
    | c :: ts => (p == c) && globMatchL ps ts

/-- A filesystem built from an explicit directory listing: `glob` filters
the listing (preserving its order) by the reference matcher, and `isFile`
is membership in the listing. -/
def FS.ofFiles (files : List String) : FS where
  glob := fun pat => files.filter (fun f => globMatchL pat.data f.data)
  isFile := fun p => files.contains p

/-- The two group tags iterated by `find_markers_from_patterns` (src 31). -/
def groups : List String := ["CLR", "DII"]

/-- The innermost loop of `find_markers_from_patterns` (src 37-44): scan the
glob results in listing order; the first filename ending in the group suffix
(the source recomputes the identical suffix string as `end`) has the suffix
stripped and added to the set, and the `break` abandons the rest of this
candidate's results; non-matching filenames are skipped. -/
def scanGlob (suffix : String) (found : Finset String) : List String → Finset String
  | [] => found
  | path :: rest =>
    let fname := basename path
    if pyEndsWith fname suffix then insert (pyDropSuffix fname suffix) found
    else scanGlob suffix found rest

/-- The per-group body of `find_markers_from_patterns` (src 31-44): build
the raw and sanitized glob candidates and scan each one's expansion. -/
def groupStep (fs : FS) (base_dir gmm_dir pat : String) (found : Finset String)
    (grp : String) : Finset String :=
  let suffix := "_" ++ grp ++ "_gmm_components.png"
  let candidates :=
    [resolve_path base_dir [gmm_dir, pat ++ suffix],
     resolve_path base_dir [gmm_dir, sanitize_for_filename pat ++ suffix]]
  candidates.foldl (fun fd c => scanGlob suffix fd (fs.glob c)) found

/-- The per-pattern body of `find_markers_from_patterns` (src 30-44). -/
def patternStep (fs : FS) (base_dir gmm_dir : String) (found : Finset String)
    (pat : String) : Finset String :=
  groups.foldl (groupStep fs base_dir gmm_dir pat) found

/-- `find_markers_from_patterns` (src 28-45): accumulate the set over all
patterns and groups, then return it lexicographically sorted. -/
def find_markers_from_patterns (fs : FS) (patterns : List String)
    (base_dir gmm_dir : String) : List String :=
  (patterns.foldl (patternStep fs base_dir gmm_dir) ∅).sort (· ≤ ·)

/-- The local helper `try_paths` (src 51-62), with its captured variables
(`fs`, `base_dir`, `m_san`) passed explicitly: per group, build the path
from the raw prefix; if it does not exist and the sanitized variant exists,
use the sanitized variant. -/
def try_paths (fs : FS) (base_dir m_san : String) (folder pre suffix : String) :
    String × String :=
  let p_clr := resolve_path base_dir [folder, pre ++ "_CLR_" ++ suffix]
  let p_dii := resolve_path base_dir [folder, pre ++ "_DII_" ++ suffix]
  let p_clr :=
    if file_exists fs p_clr = false then
      let p_clr_alt := resolve_path base_dir [folder, m_san ++ "_CLR_" ++ suffix]
      if file_exists fs p_clr_alt then p_clr_alt else p_clr
    else p_clr
  let p_dii :=
    if file_exists fs p_dii = false then
      let p_dii_alt := resolve_path base_dir [folder, m_san ++ "_DII_" ++ suffix]
      if file_exists fs p_dii_alt then p_dii_alt else p_dii
    else p_dii
  (p_clr, p_dii)

/-- The two per-group entries of one plot kind in the result of
`image_paths_for_marker`. -/
structure GroupPaths where
  CLR : String
  DII : String
deriving DecidableEq

/-- The nested result dict of `image_paths_for_marker` (src 68-72): six
paths keyed by plot kind then group. -/
structure MarkerPaths where
  gmm_components : GroupPaths
  violin : GroupPaths
  radius : GroupPaths
deriving DecidableEq

/-- `image_paths_for_marker` (src 47-72). -/
def image_paths_for_marker (fs : FS) (marker base_dir : String)
    (dirs : String → String) : MarkerPaths :=
  let m_raw := marker
  let m_san := sanitize_for_filename marker
  let gmm := try_paths fs base_dir m_san (dirs "gmm_components") m_raw "gmm_components.png"
  let vio := try_paths fs base_dir m_san (dirs "violin") m_raw "violin.png"
  let rad := try_paths fs base_dir m_san (dirs "radius_profiles") m_raw "radius_profile.png"
  { gmm_components := ⟨gmm.1, gmm.2⟩
    violin := ⟨vio.1, vio.2⟩
    radius := ⟨rad.1, rad.2⟩ }

/-- The stripped basename of every file in one glob expansion whose basename
ends in the group suffix (the spec's "inserting the stripped name for every
match found"). -/
def allMatches (suffix : String) : List String → Finset String
  | [] => ∅
  | path :: rest =>
    (if pyEndsWith (basename path) suffix then {pyDropSuffix (basename path) suffix} else ∅)
      ∪ allMatches suffix rest

/-- The stripped basename of only the first file in one glob expansion whose
basename ends in the group suffix (what the source's `break` keeps). -/
def firstMatch (suffix : String) (l : List String) : Finset String :=
  match l.find? (fun path => pyEndsWith (basename path) suffix) with
  | some path => {pyDropSuffix (basename path) suffix}
  | none => ∅

/-- One (pattern, group) contribution under first-match semantics: both glob
candidates (raw and sanitized), each contributing its first match. -/
def groupContrib (fs : FS) (base_dir gmm_dir pat grp : String) : Finset String :=
  let suffix := "_" ++ grp ++ "_gmm_components.png"
  firstMatch suffix (fs.glob (resolve_path base_dir [gmm_dir, pat ++ suffix])) ∪
    firstMatch suffix (fs.glob (resolve_path base_dir [gmm_dir, sanitize_for_filename pat ++ suffix]))

/-- One (pattern, group) contribution under every-match semantics. -/
def groupAll (fs : FS) (base_dir gmm_dir pat grp : String) : Finset String :=
  let suffix := "_" ++ grp ++ "_gmm_components.png"
  allMatches suffix (fs.glob (resolve_path base_dir [gmm_dir, pat ++ suffix])) ∪
    allMatches suffix (fs.glob (resolve_path base_dir [gmm_dir, sanitize_for_filename pat ++ suffix]))

/-- Modelled from the spec's words (the refinement target of the discovery
invariant): the union, across all patterns, both group tags and both glob
candidates, of the stripped basename of EVERY matching file, deduplicated
and lexicographically sorted. -/
def discoverMarkersSpec (fs : FS) (patterns : List String)
    (base_dir gmm_dir : String) : List String :=
  ((patterns.map (fun pat =>
      groupAll fs base_dir gmm_dir pat "CLR" ∪ groupAll fs base_dir gmm_dir pat "DII")).foldl
    (· ∪ ·) ∅).sort (· ≤ ·)

/-- First-match reading of the discovery invariant: the union, across all
patterns, both group tags and both glob candidates, of the stripped basename
of the FIRST matching file of each candidate expansion, deduplicated and
lexicographically sorted. -/
def discoverMarkersFirst (fs : FS) (patterns : List String)
    (base_dir gmm_dir : String) : List String :=
  ((patterns.map (fun pat =>
      groupContrib fs base_dir gmm_dir pat "CLR" ∪ groupContrib fs base_dir gmm_dir pat "DII")).foldl
    (· ∪ ·) ∅).sort (· ≤ ·)

/-- Spec reading of the per-slot fallback rule of `image_paths_for_marker`:
if the raw-name path does not exist and the sanitized-name path does, the
sanitized path is used; otherwise the raw-name path is kept. -/
def slotFallback (fs : FS) (rawPath sanPath : String) : String :=
  if fs.isFile rawPath = false ∧ fs.isFile sanPath = true then sanPath else rawPath

/-- A filesystem with no files at all (empty or absent directories). -/
def fsEmpty : FS :=
  ⟨fun _ => [], fun _ => false⟩

/-- A filesystem on which the only existing file is the (gmm_components, CLR)
artifact of marker EGFR under base directory `.` and folder `g`. -/
def fsOneEGFR : FS :=
  ⟨fun _ => [], fun q => q == resolve_path "." ["g", "EGFR_CLR_gmm_components.png"]⟩

lemma replaceAll_space_data (s : String) :
    (replaceAll s ' ' "_").data = s.data.map (fun c => if c = ' ' then '_' else c) := by
  obtain ⟨l⟩ := s
  show (l.map (fun c => if c = ' ' then ("_" : String).data else [c])).flatten = _
  induction l with
  | nil => rfl
  | cons c cs ih =>
    by_cases hc : c = ' ' <;>
      simp [hc, ih, show ("_" : String).data = ['_'] from rfl]

lemma replaceAll_delete_data (s : String) (ch : Char) :
    (replaceAll s ch "").data = s.data.filter (fun c => decide (c ≠ ch)) := by
  obtain ⟨l⟩ := s
  show (l.map (fun c => if c = ch then ("" : String).data else [c])).flatten = _
  induction l with
  | nil => rfl
  | cons c cs ih =>
    by_cases hc : c = ch <;>
      simp [hc, ih, show ("" : String).data = [] from rfl]

lemma sanitize_data (x : String) :
    (sanitize_for_filename x).data =
      (x.data.map (fun c => if c = ' ' then '_' else c)).filter
        (fun c => decide (c ≠ ':') && decide (c ≠ '/') && decide (c ≠ '\\')) := by
  show (replaceAll (replaceAll (replaceAll (replaceAll x ' ' "_") ':' "") '/' "") '\\' "").data = _
  rw [replaceAll_delete_data, replaceAll_delete_data, replaceAll_delete_data,
      replaceAll_space_data, List.filter_filter, List.filter_filter]
  refine List.filter_congr (fun c _ => ?_)
  cases h1 : decide (c ≠ ':') <;> cases h2 : decide (c ≠ '/') <;> cases h3 : decide (c ≠ '\\') <;>
    simp [h1, h2, h3]

lemma sanitize_chars_clean (x : String) :
    ∀ c ∈ (sanitize_for_filename x).data, c ≠ ' ' ∧ c ≠ ':' ∧ c ≠ '/' ∧ c ≠ '\\' := by
  intro c hc
  rw [sanitize_data] at hc
  have h₁ := List.of_mem_filter hc
  have h₂ := List.mem_of_mem_filter hc
  obtain ⟨a, -, rfl⟩ := List.mem_map.mp h₂
  simp only [Bool.and_eq_true, decide_eq_true_eq] at h₁
  refine ⟨?_, h₁.1.1, h₁.1.2, h₁.2⟩
  by_cases ha : a = ' ' <;> simp [ha]

lemma sanitize_fixed_of_clean (x : String)
    (h : ∀ c ∈ x.data, c ≠ ' ' ∧ c ≠ ':' ∧ c ≠ '/' ∧ c ≠ '\\') :
    sanitize_for_filename x = x := by
  have hd : (sanitize_for_filename x).data = x.data := by
    rw [sanitize_data]
    have hmap : x.data.map (fun c => if c = ' ' then '_' else c) = x.data := by
      conv_rhs => rw [← List.map_id x.data]
      exact List.map_congr_left (fun a ha => by rw [if_neg (h a ha).1]; rfl)
    rw [hmap]
    exact List.filter_eq_self.mpr (fun a ha => by
      simp [(h a ha).2.1, (h a ha).2.2.1, (h a ha).2.2.2])
  exact congrArg String.mk hd

/-- Claim C3: `sanitize_for_filename` replaces every space with `_` and then
removes every occurrence of `:`, `/` and `\` (literal replacement), with no
other normalization: per character its output is the space-to-underscore map
followed by a filter removing those three characters; in particular it sends
`"CD11b marker"` to `"CD11b_marker"` and `"a:b/c\d"` to `"abcd"`. -/
theorem sanitize_replaces_spaces_then_strips :
    (∀ x : String, (sanitize_for_filename x).data =
        (x.data.map (fun c => if c = ' ' then '_' else c)).filter
          (fun c => decide (c ≠ ':') && decide (c ≠ '/') && decide (c ≠ '\\'))) ∧
    sanitize_for_filename "CD11b marker" = "CD11b_marker" ∧
    sanitize_for_filename "a:b/c\\d" = "abcd" :=
  ⟨sanitize_data, by decide, by decide⟩

/-- Claim C6: `sanitize_for_filename` is idempotent. -/
theorem sanitize_idempotent :
    ∀ x : String,
      sanitize_for_filename (sanitize_for_filename x) = sanitize_for_filename x :=
  fun x => sanitize_fixed_of_clean _ (sanitize_chars_clean x)

/-- Claim C10: the output of `sanitize_for_filename` never contains a space,
colon, forward slash or backslash, and is therefore a fixed point of
`sanitize_for_filename`. -/
theorem sanitize_output_clean_fixed_point :
    ∀ x : String,
      (∀ c ∈ (sanitize_for_filename x).data, c ≠ ' ' ∧ c ≠ ':' ∧ c ≠ '/' ∧ c ≠ '\\') ∧
      sanitize_for_filename (sanitize_for_filename x) = sanitize_for_filename x :=
  fun x => ⟨sanitize_chars_clean x, sanitize_fixed_of_clean _ (sanitize_chars_clean x)⟩

/-- Claim C7: for every postfix string, `folder_templates` returns exactly
four entries, keyed `pval_barplots`, `gmm_components`, `violin`,
`radius_profiles`, and each entry's value contains the postfix as a
contiguous substring; the function is total and performs no existence
check. -/
theorem folder_templates_four_entries :
    ∀ pfx : String,
      (folder_templates pfx).map Prod.fst =
          ["pval_barplots", "gmm_components", "violin", "radius_profiles"] ∧
      (folder_templates pfx).length = 4 ∧
      ∀ kv ∈ folder_templates pfx, pfx.data <:+: kv.2.data := by
  intro p
  refine ⟨rfl, rfl, ?_⟩
  intro kv hkv
  simp only [folder_templates, List.mem_cons, List.not_mem_nil, or_false] at hkv
  rcases hkv with rfl | rfl | rfl | rfl
  · exact ⟨"tls_pval_barplots_".data, [], by simp⟩
  · exact ⟨"tail_3sig_byMedian_".data, "_median_plus_3mad".data, by simp⟩
  · exact ⟨"tls_violin_by_tls_cluster_".data, [], by simp⟩
  · exact ⟨"tls_radius_profiles_grouped_variation_gmmMedian_allPatients_".data,
      "_inwardLimit2".data, by simp⟩

lemma fallback_if (b1 b2 : Bool) (raw san : String) :
    (if b1 = false then (if b2 = true then san else raw) else raw) =
    (if b1 = false ∧ b2 = true then san else raw) := by
  cases b1 <;> cases b2 <;> simp

lemma try_paths_eq (fs : FS) (base_dir m_san folder pre suffix : String) :
    try_paths fs base_dir m_san folder pre suffix =
      (slotFallback fs (resolve_path base_dir [folder, pre ++ "_CLR_" ++ suffix])
        (resolve_path base_dir [folder, m_san ++ "_CLR_" ++ suffix]),
       slotFallback fs (resolve_path base_dir [folder, pre ++ "_DII_" ++ suffix])
        (resolve_path base_dir [folder, m_san ++ "_DII_" ++ suffix])) := by
  simp only [try_paths, slotFallback, file_exists]
  rw [fallback_if, fallback_if]

lemma slotFallback_self (fs : FS) (p : String) : slotFallback fs p p = p := by
  unfold slotFallback
  split <;> rfl

/-- Claim C2: each of the six (plot kind, group) slots of
`image_paths_for_marker` is resolved independently by the fallback rule:
the raw-name path if it exists, else the sanitized-name path if that
exists, else the (nonexistent) raw-name path; in particular resolving
marker `"CD11b marker"` for (violin, CLR) when only the sanitized file
exists yields the sanitized path. -/
theorem image_paths_slot_fallback :
    (∀ (fs : FS) (marker base_dir : String) (dirs : String → String),
      (image_paths_for_marker fs marker base_dir dirs).gmm_components.CLR =
        slotFallback fs
          (resolve_path base_dir [dirs "gmm_components", marker ++ "_CLR_" ++ "gmm_components.png"])
          (resolve_path base_dir
            [dirs "gmm_components", sanitize_for_filename marker ++ "_CLR_" ++ "gmm_components.png"]) ∧
      (image_paths_for_marker fs marker base_dir dirs).gmm_components.DII =
        slotFallback fs
          (resolve_path base_dir [dirs "gmm_components", marker ++ "_DII_" ++ "gmm_components.png"])
          (resolve_path base_dir
            [dirs "gmm_components", sanitize_for_filename marker ++ "_DII_" ++ "gmm_components.png"]) ∧
      (image_paths_for_marker fs marker base_dir dirs).violin.CLR =
        slotFallback fs
          (resolve_path base_dir [dirs "violin", marker ++ "_CLR_" ++ "violin.png"])
          (resolve_path base_dir
            [dirs "violin", sanitize_for_filename marker ++ "_CLR_" ++ "violin.png"]) ∧
      (image_paths_for_marker fs marker base_dir dirs).violin.DII =
        slotFallback fs
          (resolve_path base_dir [dirs "violin", marker ++ "_DII_" ++ "violin.png"])
          (resolve_path base_dir
            [dirs "violin", sanitize_for_filename marker ++ "_DII_" ++ "violin.png"]) ∧
      (image_paths_for_marker fs marker base_dir dirs).radius.CLR =
        slotFallback fs
          (resolve_path base_dir [dirs "radius_profiles", marker ++ "_CLR_" ++ "radius_profile.png"])
          (resolve_path base_dir
            [dirs "radius_profiles", sanitize_for_filename marker ++ "_CLR_" ++ "radius_profile.png"]) ∧
      (image_paths_for_marker fs marker base_dir dirs).radius.DII =
        slotFallback fs
          (resolve_path base_dir [dirs "radius_profiles", marker ++ "_DII_" ++ "radius_profile.png"])
          (resolve_path base_dir
            [dirs "radius_profiles", sanitize_for_filename marker ++ "_DII_" ++ "radius_profile.png"])) ∧
    (image_paths_for_marker (FS.ofFiles ["./v/CD11b_marker_CLR_violin.png"]) "CD11b marker" "."
        (fun _ => "v")).violin.CLR = "./v/CD11b_marker_CLR_violin.png" := by
  constructor
  · intro fs marker base_dir dirs
    refine ⟨?_, ?_, ?_, ?_, ?_, ?_⟩ <;>
      simp [image_paths_for_marker, try_paths_eq]
  · decide

lemma joinOne_data_suffix (p b : String) : b.data <:+ (joinOne p b).data := by
  unfold joinOne
  split
  · exact List.suffix_refl _
  · split
    · exact List.suffix_append _ _
    · show b.data <:+ p.data ++ '/' :: b.data
      have h : p.data ++ '/' :: b.data = (p.data ++ ['/']) ++ b.data := by simp
      rw [h]
      exact List.suffix_append _ _

lemma resolve_two_suffix (base d b : String) :
    b.data <:+ (resolve_path base [d, b]).data :=
  joinOne_data_suffix _ _

lemma resolve_ne_of_incomp (base₁ d₁ b₁ base₂ d₂ b₂ : String)
    (h : ¬(b₁.data <:+ b₂.data ∨ b₂.data <:+ b₁.data)) :
    resolve_path base₁ [d₁, b₁] ≠ resolve_path base₂ [d₂, b₂] := by
  intro he
  have s₁ := resolve_two_suffix base₁ d₁ b₁
  have s₂ := resolve_two_suffix base₂ d₂ b₂
  rw [he] at s₁
  exact h (List.suffix_or_suffix_of_suffix s₁ s₂)

/-- Claim C5: `image_paths_for_marker` is total and always yields exactly six
paths (the six fields of `MarkerPaths`), raising no exception for missing
files; for marker `"EGFR"` on a filesystem where the only existing file is
the (gmm_components, CLR) artifact, that slot's path exists and the other
five slots hold nonexistent paths. -/
theorem image_paths_only_gmm_clr_exists :
    ∀ (fs : FS) (base_dir : String) (dirs : String → String),
      (∀ q, fs.isFile q =
        (q == resolve_path base_dir [dirs "gmm_components", "EGFR_CLR_gmm_components.png"])) →
      fs.isFile ((image_paths_for_marker fs "EGFR" base_dir dirs).gmm_components.CLR) = true ∧
      fs.isFile ((image_paths_for_marker fs "EGFR" base_dir dirs).gmm_components.DII) = false ∧
      fs.isFile ((image_paths_for_marker fs "EGFR" base_dir dirs).violin.CLR) = false ∧
      fs.isFile ((image_paths_for_marker fs "EGFR" base_dir dirs).violin.DII) = false ∧
      fs.isFile ((image_paths_for_marker fs "EGFR" base_dir dirs).radius.CLR) = false ∧
      fs.isFile ((image_paths_for_marker fs "EGFR" base_dir dirs).radius.DII) = false := by
  intro fs base_dir dirs h
  have hi : image_paths_for_marker fs "EGFR" base_dir dirs =
      { gmm_components :=
          ⟨resolve_path base_dir [dirs "gmm_components", "EGFR_CLR_gmm_components.png"],
           resolve_path base_dir [dirs "gmm_components", "EGFR_DII_gmm_components.png"]⟩
        violin :=
          ⟨resolve_path base_dir [dirs "violin", "EGFR_CLR_violin.png"],
           resolve_path base_dir [dirs "violin", "EGFR_DII_violin.png"]⟩
        radius :=
          ⟨resolve_path base_dir [dirs "radius_profiles", "EGFR_CLR_radius_profile.png"],
           resolve_path base_dir [dirs "radius_profiles", "EGFR_DII_radius_profile.png"]⟩ } := by
    simp [image_paths_for_marker, try_paths_eq, slotFallback_self,
      show sanitize_for_filename "EGFR" = "EGFR" from rfl]
  rw [hi]
  refine ⟨?_, ?_, ?_, ?_, ?_, ?_⟩
  · rw [h]
    exact beq_self_eq_true _
  all_goals rw [h]
  · exact beq_eq_false_iff_ne.mpr (resolve_ne_of_incomp base_dir (dirs "gmm_components")
      "EGFR_DII_gmm_components.png" base_dir (dirs "gmm_components")
      "EGFR_CLR_gmm_components.png" (by decide))
  · exact beq_eq_false_iff_ne.mpr (resolve_ne_of_incomp base_dir (dirs "violin")
      "EGFR_CLR_violin.png" base_dir (dirs "gmm_components")
      "EGFR_CLR_gmm_components.png" (by decide))
  · exact beq_eq_false_iff_ne.mpr (resolve_ne_of_incomp base_dir (dirs "violin")
      "EGFR_DII_violin.png" base_dir (dirs "gmm_components")
      "EGFR_CLR_gmm_components.png" (by decide))
  · exact beq_eq_false_iff_ne.mpr (resolve_ne_of_incomp base_dir (dirs "radius_profiles")
      "EGFR_CLR_radius_profile.png" base_dir (dirs "gmm_components")
      "EGFR_CLR_gmm_components.png" (by decide))
  · exact beq_eq_false_iff_ne.mpr (resolve_ne_of_incomp base_dir (dirs "radius_profiles")
      "EGFR_DII_radius_profile.png" base_dir (dirs "gmm_components")
      "EGFR_CLR_gmm_components.png" (by decide))

/-- Witness for C5 at a concrete filesystem holding exactly the
(gmm_components, CLR) artifact of EGFR. -/
theorem image_paths_only_gmm_clr_exists_witness :
    fsOneEGFR.isFile
        ((image_paths_for_marker fsOneEGFR "EGFR" "." (fun _ => "g")).gmm_components.CLR) = true ∧
    fsOneEGFR.isFile
        ((image_paths_for_marker fsOneEGFR "EGFR" "." (fun _ => "g")).gmm_components.DII) = false ∧
    fsOneEGFR.isFile
        ((image_paths_for_marker fsOneEGFR "EGFR" "." (fun _ => "g")).violin.CLR) = false ∧
    fsOneEGFR.isFile
        ((image_paths_for_marker fsOneEGFR "EGFR" "." (fun _ => "g")).violin.DII) = false ∧
    fsOneEGFR.isFile
        ((image_paths_for_marker fsOneEGFR "EGFR" "." (fun _ => "g")).radius.CLR) = false ∧
    fsOneEGFR.isFile
        ((image_paths_for_marker fsOneEGFR "EGFR" "." (fun _ => "g")).radius.DII) = false :=
  image_paths_only_gmm_clr_exists fsOneEGFR "." (fun _ => "g") (fun _ => rfl)

/-- Claim C4: `find_markers_from_patterns` is total (the embedding is a plain
function) and returns the empty list whenever the target directory is empty
or absent, i.e. whenever every glob expansion is empty; missing directories
or files contribute zero matches rather than a partial failure. -/
theorem find_markers_empty_on_empty_dir :
    ∀ (fs : FS) (patterns : List String) (base_dir gmm_dir : String),
      (∀ c, fs.glob c = []) →
      find_markers_from_patterns fs patterns base_dir gmm_dir = [] := by
  intro fs patterns base gmm h
  unfold find_markers_from_patterns
  have hstep : ∀ found pat, patternStep fs base gmm found pat = found := by
    intro found pat
    simp [patternStep, groups, groupStep, h, scanGlob]
  have hfold : patterns.foldl (patternStep fs base gmm) ∅ = ∅ := by
    induction patterns with
    | nil => rfl
    | cons p ps ih => rw [List.foldl_cons, hstep]; exact ih
  rw [hfold]
  exact Finset.sort_empty _

/-- Witness for C4 at a concrete empty filesystem. -/
theorem find_markers_empty_on_empty_dir_witness :
    find_markers_from_patterns fsEmpty ["EGFR*"] "." "gdir" = [] :=
  find_markers_empty_on_empty_dir fsEmpty ["EGFR*"] "." "gdir" (fun _ => rfl)

lemma union_single (s : Finset String) (x : String) : s ∪ {x} = insert x s := by
  rw [Finset.union_comm, ← Finset.insert_eq]

lemma scanGlob_eq (suffix : String) (found : Finset String) (l : List String) :
    scanGlob suffix found l = found ∪ firstMatch suffix l := by
  induction l with
  | nil => simp [scanGlob, firstMatch]
  | cons path rest ih =>
    by_cases hp : pyEndsWith (basename path) suffix = true
    · simp [scanGlob, firstMatch, hp, List.find?_cons_of_pos, union_single]
    · simp only [scanGlob, firstMatch] at ih ⊢
      rw [List.find?_cons_of_neg _ (by simpa using hp)]
      simpa [hp] using ih

lemma groupStep_eq (fs : FS) (base_dir gmm_dir pat : String) (found : Finset String)
    (grp : String) :
    groupStep fs base_dir gmm_dir pat found grp =
      found ∪ groupContrib fs base_dir gmm_dir pat grp := by
  simp only [groupStep, groupContrib, List.foldl_cons, List.foldl_nil]
  rw [scanGlob_eq, scanGlob_eq, Finset.union_assoc]

lemma patternStep_eq (fs : FS) (base_dir gmm_dir : String) (found : Finset String)
    (pat : String) :
    patternStep fs base_dir gmm_dir found pat =
      found ∪ (groupContrib fs base_dir gmm_dir pat "CLR" ∪
        groupContrib fs base_dir gmm_dir pat "DII") := by
  simp only [patternStep, groups, List.foldl_cons, List.foldl_nil]
  rw [groupStep_eq, groupStep_eq, Finset.union_assoc]

/-- Claim C8: the sorted output of `find_markers_from_patterns` is invariant
under permutation of the input pattern sequence. -/
theorem find_markers_pattern_order_invariant :
    ∀ (fs : FS) (base_dir gmm_dir : String) (ps₁ ps₂ : List String),
      ps₁.Perm ps₂ →
      find_markers_from_patterns fs ps₁ base_dir gmm_dir =
        find_markers_from_patterns fs ps₂ base_dir gmm_dir := by
  intro fs b g ps₁ ps₂ hperm
  unfold find_markers_from_patterns
  have hs : ps₁.foldl (patternStep fs b g) ∅ = ps₂.foldl (patternStep fs b g) ∅ :=
    hperm.foldl_eq' (fun x _ y _ z => by
      simp only [patternStep_eq]
      exact Finset.union_right_comm _ _ _) ∅
  rw [hs]

/-- Witness for C8 at a concrete filesystem and a concrete transposition. -/
theorem find_markers_pattern_order_invariant_witness :
    find_markers_from_patterns fsEmpty ["A*", "B*"] "." "g" =
      find_markers_from_patterns fsEmpty ["B*", "A*"] "." "g" :=
  find_markers_pattern_order_invariant fsEmpty "." "g" _ _ (List.Perm.swap "B*" "A*" [])

/-- Amended claim C1: `find_markers_from_patterns` returns the
lexicographically sorted deduplicated union, over all patterns, both group
tags and both glob candidates, of the stripped basename of the FIRST glob
match of each candidate expansion (the `break` skips any further matches of
the same candidate); on the spec's example directory holding the CLR and DII
gmm-components files of EGFR this yields exactly `["EGFR"]`. -/
theorem find_markers_first_match_characterization :
    (∀ (fs : FS) (patterns : List String) (base_dir gmm_dir : String),
      find_markers_from_patterns fs patterns base_dir gmm_dir =
        discoverMarkersFirst fs patterns base_dir gmm_dir) ∧
    find_markers_from_patterns
        (FS.ofFiles ["./d/EGFR_CLR_gmm_components.png", "./d/EGFR_DII_gmm_components.png"])
        ["EGFR*"] "." "d" = ["EGFR"] := by
  constructor
  · intro fs patterns b g
    unfold find_markers_from_patterns discoverMarkersFirst
    have hfold : ∀ acc : Finset String, patterns.foldl (patternStep fs b g) acc =
        (patterns.map (fun pat =>
          groupContrib fs b g pat "CLR" ∪ groupContrib fs b g pat "DII")).foldl (· ∪ ·) acc := by
      induction patterns with
      | nil => intro acc; rfl
      | cons p ps ih =>
        intro acc
        rw [List.map_cons, List.foldl_cons, List.foldl_cons, patternStep_eq]
        exact ih _
    rw [hfold]
  · have hset : (["EGFR*"].foldl
        (patternStep (FS.ofFiles ["./d/EGFR_CLR_gmm_components.png",
          "./d/EGFR_DII_gmm_components.png"]) "." "d") ∅) = ({"EGFR"} : Finset String) := by
      decide
    unfold find_markers_from_patterns
    rw [hset]
    exact Finset.sort_singleton _ _

/-- Counterexample to claim C1 as stated: on a directory holding
`EGFR_CLR_gmm_components.png` and `EGFR2_CLR_gmm_components.png` with
pattern `["EGFR*"]`, the implementation returns `["EGFR"]` (the `break`
discards the second match of the same glob candidate), while the claimed
every-match union is `["EGFR", "EGFR2"]`. -/
theorem find_markers_break_loses_matches :
    find_markers_from_patterns
        (FS.ofFiles ["./d/EGFR_CLR_gmm_components.png", "./d/EGFR2_CLR_gmm_components.png"])
        ["EGFR*"] "." "d" = ["EGFR"] ∧
    discoverMarkersSpec
        (FS.ofFiles ["./d/EGFR_CLR_gmm_components.png", "./d/EGFR2_CLR_gmm_components.png"])
        ["EGFR*"] "." "d" = ["EGFR", "EGFR2"] ∧
    find_markers_from_patterns
        (FS.ofFiles ["./d/EGFR_CLR_gmm_components.png", "./d/EGFR2_CLR_gmm_components.png"])
        ["EGFR*"] "." "d" ≠
      discoverMarkersSpec
        (FS.ofFiles ["./d/EGFR_CLR_gmm_components.png", "./d/EGFR2_CLR_gmm_components.png"])
        ["EGFR*"] "." "d" := by
  have h1 : find_markers_from_patterns
      (FS.ofFiles ["./d/EGFR_CLR_gmm_components.png", "./d/EGFR2_CLR_gmm_components.png"])
      ["EGFR*"] "." "d" = ["EGFR"] := by
    have hset : (["EGFR*"].foldl
        (patternStep (FS.ofFiles ["./d/EGFR_CLR_gmm_components.png",
          "./d/EGFR2_CLR_gmm_components.png"]) "." "d") ∅) = ({"EGFR"} : Finset String) := by
      decide
    unfold find_markers_from_patterns
    rw [hset]
    exact Finset.sort_singleton _ _
  have h2 : discoverMarkersSpec
      (FS.ofFiles ["./d/EGFR_CLR_gmm_components.png", "./d/EGFR2_CLR_gmm_components.png"])
      ["EGFR*"] "." "d" = ["EGFR", "EGFR2"] := by
    have hset : ((["EGFR*"].map (fun pat =>
        groupAll (FS.ofFiles ["./d/EGFR_CLR_gmm_components.png",
          "./d/EGFR2_CLR_gmm_components.png"]) "." "d" pat "CLR" ∪
        groupAll (FS.ofFiles ["./d/EGFR_CLR_gmm_components.png",
          "./d/EGFR2_CLR_gmm_components.png"]) "." "d" pat "DII")).foldl (· ∪ ·) ∅) =
        ({"EGFR", "EGFR2"} : Finset String) := by
      decide
    unfold discoverMarkersSpec
    rw [hset]
    rw [Finset.sort_insert]
    · rw [Finset.sort_singleton]
    · intro b hb
      simp only [Finset.mem_singleton] at hb
      subst hb
      rw [String.le_iff_toList_le]
      decide
    · decide
  exact ⟨h1, h2, by rw [h1, h2]; decide⟩

/-- Claim C9: discovery and resolution are deterministic, read-only and
idempotent: their results depend only on the filesystem observations, so two
calls against an unchanged filesystem state return identical results (the
embedding is state-passing; neither function produces a modified state). -/
theorem discovery_resolution_read_only_deterministic :
    ∀ (fs₁ fs₂ : FS) (patterns : List String) (base_dir gmm_dir marker : String)
      (dirs : String → String),
      (∀ p, fs₁.glob p = fs₂.glob p) →
      (∀ p, fs₁.isFile p = fs₂.isFile p) →
      find_markers_from_patterns fs₁ patterns base_dir gmm_dir =
          find_markers_from_patterns fs₂ patterns base_dir gmm_dir ∧
        image_paths_for_marker fs₁ marker base_dir dirs =
          image_paths_for_marker fs₂ marker base_dir dirs := by
  intro fs₁ fs₂ patterns b g marker dirs hg hf
  have hfs : fs₁ = fs₂ := by
    cases fs₁
    cases fs₂
    congr 1
    · funext p
      exact hg p
    · funext p
      exact hf p
  rw [hfs]
  exact ⟨rfl, rfl⟩

/-- Witness for C9 at a concrete filesystem. -/
theorem discovery_resolution_read_only_deterministic_witness :
    find_markers_from_patterns fsEmpty ["EGFR*"] "." "g" =
        find_markers_from_patterns fsEmpty ["EGFR*"] "." "g" ∧
      image_paths_for_marker fsEmpty "EGFR" "." (fun _ => "g") =
        image_paths_for_marker fsEmpty "EGFR" "." (fun _ => "g") :=
  discovery_resolution_read_only_deterministic fsEmpty fsEmpty ["EGFR*"] "." "g" "EGFR"
    (fun _ => "g") (fun _ => rfl) (fun _ => rfl)

end TLSViewer
